import Mathlib

/- Verification of the pinned Rust toolchain installer against its
natural-language specification.

The program under study is the orchestrated installer script: the constants
`BINARY_NAME`, `PLATFORMS`, `ANDROID_STDS`, the assembler
`setupIndependentRust`, the fetch-and-extract routine `downloadAndExtract`
and the orchestrator `run`.

The script's effects are filesystem operations (`existsSync`, `mkdirSync`,
`rmSync`, `cpSync`, `chmodSync`, write streams) plus HTTP fetches and a
`tar` subprocess.  We embed the filesystem shallowly: a filesystem is a
list of entries (regular files carrying size and permission mode, and
directories), where an entry list is read front-to-back, so prepending an
entry realises overwriting, and a path "exists" when it is a prefix of (or
equal to) some entry's path, matching `existsSync` on a directory tree.
The network and the `tar` subprocess are an oracle `String -> Resp` giving,
per URL, the HTTP status, the body chunk sizes, possible stream failures,
whether `tar` succeeds on the downloaded archive, and the tree `tar` would
unpack.  Every definition is executable. -/

/-- A filesystem path, as its list of components (`path.join` in the source
concatenates components). -/
abbrev FPath := List String

/-- Metadata of a regular file: its size in bytes and its permission mode. -/
structure FileMeta where
  size : Nat
  mode : Nat
deriving Repr, DecidableEq, Inhabited

/-- A filesystem entry: a regular file with metadata, or a directory. -/
inductive Entry where
  | file (p : FPath) (meta : FileMeta)
  | dir (p : FPath)
deriving Repr, DecidableEq, Inhabited

/-- The path of an entry. -/
def Entry.path : Entry → FPath
  | .file p _ => p
  | .dir p => p

/-- `dropPre p q` returns `some r` when `q = p ++ r`, and `none` when `p`
is not an initial segment of `q`. -/
def dropPre : FPath → FPath → Option FPath
  | [], q => some q
  | _ :: _, [] => none
  | a :: p, b :: q => if a = b then dropPre p q else none

/-- `pre p q`: path `p` is an ancestor of, or equal to, path `q`. -/
def pre (p q : FPath) : Bool := (dropPre p q).isSome

/-- A filesystem: a front-to-back list of entries.  An entry may shadow a
later entry with the same path; metadata lookup takes the first match, so
prepending realises overwrite-on-copy semantics. -/
structure FS where
  entries : List Entry
deriving Repr, DecidableEq

/-- `existsSync p`: some entry lies at `p` or below it (a directory exists
as soon as anything inside it does). -/
def FS.existsPath (fs : FS) (p : FPath) : Bool :=
  fs.entries.any fun e => pre p e.path

/-- `rmSync p {recursive: true}`: remove every entry at `p` or below. -/
def FS.rmRec (fs : FS) (p : FPath) : FS :=
  ⟨fs.entries.filter fun e => !pre p e.path⟩

/-- `mkdirSync p {recursive: true}`: record the directory `p` (ancestors
exist implicitly through the prefix-based `existsPath`). -/
def FS.mkdirRec (fs : FS) (p : FPath) : FS :=
  ⟨Entry.dir p :: fs.entries⟩

/-- Write (or overwrite) the regular file at `p`. -/
def FS.setFile (fs : FS) (p : FPath) (m : FileMeta) : FS :=
  ⟨Entry.file p m :: fs.entries⟩

/-- `chmodSync p mode`: set the permission mode of the file at `p`. -/
def FS.chmod (fs : FS) (p : FPath) (mode : Nat) : FS :=
  ⟨fs.entries.map fun e =>
    match e with
    | .file q meta => if q = p then .file q ⟨meta.size, mode⟩ else .file q meta
    | .dir q => .dir q⟩

/-- Relocate an entry under `src` to the corresponding path under `dest`;
`none` when the entry does not lie under `src`. -/
def Entry.relocate (src dest : FPath) : Entry → Option Entry
  | .file p m => (dropPre src p).map fun r => .file (dest ++ r) m
  | .dir p => (dropPre src p).map fun r => .dir (dest ++ r)

/-- `cpSync src dest {recursive: true}`: copy the whole subtree at `src`
onto `dest`, merging over what is already there (copied entries are
prepended, so they win over previous entries at the same path, while
entries of `dest` not covered by the copy survive — Node `cpSync`
force-overwrite merge semantics). -/
def FS.copyRec (fs : FS) (src dest : FPath) : FS :=
  ⟨fs.entries.filterMap (Entry.relocate src dest) ++ fs.entries⟩

/-- Metadata of the regular file at `p` (first match wins). -/
def FS.fileMeta (fs : FS) (p : FPath) : Option FileMeta :=
  fs.entries.findSome? fun e =>
    match e with
    | .file q m => if q = p then some m else none
    | .dir _ => none

/-- Is there a regular file exactly at `p`? -/
def FS.isFile (fs : FS) (p : FPath) : Bool :=
  fs.entries.any fun e =>
    match e with
    | .file q _ => q = p
    | .dir _ => false

/-- The distinct names of the children of directory `d`: every entry whose
path properly extends `d` contributes its first component below `d`. -/
def FS.entriesUnder (fs : FS) (d : FPath) : List String :=
  (fs.entries.filterMap fun e => (dropPre d e.path).bind List.head?).dedup

/-- Render a path for log messages. -/
def showPath (p : FPath) : String := String.intercalate "/" p

/-! ## The source program's configuration constants -/

/-- Source: `const BINARY_NAME = "rustc"`. -/
def BINARY_NAME : String := "rustc"

/-- Source: the `PLATFORMS` table, mapping a platformKey to the primary
toolchain archive URL; absent keys are unsupported. -/
def PLATFORMS (platformKey : String) : Option String :=
  if platformKey = "darwin-arm64" then
    some "https://static.rust-lang.org/dist/rust-1.92.0-aarch64-apple-darwin.tar.xz"
  else if platformKey = "darwin-x64" then
    some "https://static.rust-lang.org/dist/rust-1.92.0-x86_64-apple-darwin.tar.xz"
  else if platformKey = "linux-x64" then
    some "https://static.rust-lang.org/dist/rust-1.92.0-x86_64-unknown-linux-gnu.tar.xz"
  else none

/-- Source: `const ANDROID_STDS = [...]`, the supplementary Android
standard-library archive URLs. -/
def ANDROID_STDS : List String :=
  [ "https://static.rust-lang.org/dist/rust-std-1.92.0-i686-linux-android.tar.gz",
    "https://static.rust-lang.org/dist/rust-std-1.92.0-x86_64-linux-android.tar.gz",
    "https://static.rust-lang.org/dist/rust-std-1.92.0-armv7-linux-androideabi.tar.xz",
    "https://static.rust-lang.org/dist/rust-std-1.92.0-aarch64-linux-android.tar.xz" ]

/-- Source: the `androidTargets` list inside `setupIndependentRust`. -/
def androidTargets : List String :=
  ["i686-linux-android", "x86_64-linux-android", "armv7-linux-androideabi",
   "aarch64-linux-android"]

/-- Source: the `targetTriple` conditional chain inside
`setupIndependentRust` — a pure function of the platformKey whose fallback
branch yields the empty string. -/
def targetTripleOf (platformKey : String) : String :=
  if platformKey = "linux-x64" then "x86_64-unknown-linux-gnu"
  else if platformKey = "darwin-arm64" then "aarch64-apple-darwin"
  else if platformKey = "darwin-x64" then "x86_64-apple-darwin"
  else ""

/-- Source: the `if (process.platform === "linux")` guard in `run` that
selects the supplementary archives to fetch. -/
def supplementaryUrls (platform : String) : List String :=
  if platform = "linux" then ANDROID_STDS else []

/-! ## The assembler (`setupIndependentRust`) -/

/-- Source: the `copyDir` helper inside `setupIndependentRust` — when the
source subtree is missing it logs a warning and skips the copy; otherwise
it copies recursively.  The accumulated warning log is threaded through. -/
def copyDir (s : FS × List String) (src dest : FPath) : FS × List String :=
  if s.1.existsPath src then (s.1.copyRec src dest, s.2)
  else (s.1, s.2 ++ ["Warning: Source not found: " ++ showPath src])

/-- Source: `setupIndependentRust(unpackedPath)`.  `dirname` stands for
`__dirname`; `platform`/`arch` stand for `process.platform`/`process.arch`
read inside the function.  The returned pair is the final filesystem and
the warnings emitted by `copyDir` (in order). -/
def setupIndependentRust (dirname : FPath) (platform arch : String)
    (unpackedPath : FPath) (fs0 : FS) : FS × List String :=
  let distPath := unpackedPath ++ ["dist"]
  let binPath := distPath ++ ["bin"]
  let libPath := distPath ++ ["lib"]
  let fs1 := if fs0.existsPath distPath then fs0.rmRec distPath else fs0
  let fs2 := (fs1.mkdirRec binPath).mkdirRec libPath
  let platformKey := platform ++ "-" ++ arch
  let targetTriple := targetTripleOf platformKey
  let s3 := copyDir (fs2, []) (unpackedPath ++ ["rustc", "bin"]) binPath
  let s4 := copyDir s3 (unpackedPath ++ ["rustc", "lib"]) libPath
  let s5 := copyDir s4 (unpackedPath ++ ["cargo", "bin"]) binPath
  let stdLibSrc := unpackedPath ++ ["rust-std-" ++ targetTriple, "lib", "rustlib"]
  let s6 := copyDir s5 stdLibSrc (libPath ++ ["rustlib"])
  let s7 :=
    if platform = "linux" then
      androidTargets.foldl
        (fun s t =>
          copyDir s (unpackedPath ++ ["rust-std-" ++ t, "lib", "rustlib", t])
            (libPath ++ ["rustlib", t]))
        s6
    else s6
  let s8 :=
    if s7.1.existsPath (dirname ++ ["dist"]) then
      (s7.1.rmRec (dirname ++ ["dist"]), s7.2)
    else s7
  let s9 := (s8.1.mkdirRec (dirname ++ ["dist"]), s8.2)
  copyDir s9 distPath (dirname ++ ["dist"])

/-! ## The fetcher/extractor (`downloadAndExtract`) and orchestrator (`run`) -/

/-- The error taxonomy.  `emptyDownload` is the specification's
`EmptyDownload` failure; the orchestrated code never produces it (see the
claim about empty bodies). -/
inductive Err where
  | unsupportedPlatform
  | httpError (status : Nat)
  | readError
  | writeError
  | tarFail
  | emptyDownload
deriving Repr, DecidableEq

/-- The per-URL oracle describing the remote server and the behaviour of
the local stream and of `tar` on the downloaded bytes:
`status` is the HTTP status; `chunks` the body chunk sizes in arrival
order; `readFailAt = some k` means the body stream errors after `k` chunks
were received and written; `writeFail` means the file write stream reports
an error (through its error event) after the body was consumed; `tarOk`
tells whether `tar -xf` exits with status 0, and `tarFiles`/`tarDirs` are
the entries (relative paths) it unpacks into the extraction directory. -/
structure Resp where
  status : Nat
  chunks : List Nat
  readFailAt : Option Nat
  writeFail : Bool
  tarOk : Bool
  tarFiles : List (FPath × FileMeta)
  tarDirs : List FPath

/-- `Response.ok` of `fetch`: status in the 200–299 range. -/
def respOk (status : Nat) : Bool := 200 ≤ status && status < 300

/-- Result of `downloadAndExtract`: the filesystem, the propagated error
(if any), and the `console.error` diagnostics it printed itself. -/
structure DLRes where
  fs : FS
  err : Option Err
  log : List String
deriving Repr, DecidableEq

/-- The last `/`-separated segment of a character list (accumulating the
current segment in reverse). -/
def lastSegment : List Char → List Char → List Char
  | [], cur => cur.reverse
  | c :: cs, cur => if c = '/' then lastSegment cs [] else lastSegment cs (c :: cur)

/-- `path.basename(new URL(url).pathname)`: for the plain distribution
URLs the program uses (no query, no fragment, no trailing slash) this is
the last `/`-separated segment. -/
def urlBasename (url : String) : String := ⟨lastSegment url.toList []⟩

/-- The effect of a successful `tar -xf archive --strip-components=1 -C
dest`: deposit the archive's entries (their wrapper directory already
stripped by the oracle) under `dest`, overwriting colliding paths. -/
def extractInto (fs : FS) (dest : FPath) (tf : List (FPath × FileMeta))
    (td : List FPath) : FS :=
  ⟨(tf.map fun e => Entry.file (dest ++ e.1) e.2)
    ++ (td.map fun p => Entry.dir (dest ++ p)) ++ fs.entries⟩

/-- Source: `downloadAndExtract(url, extractPath)`.

Faithful control flow: the download directory is created if absent; a
non-2xx status throws, is caught locally (diagnostic, remove the archive
path if present) and propagates as `httpError`; a body-read error likewise
(the partially written file is removed).  After the body is written the
function returns a promise: a write-stream error or a failing `tar` REJECT
that promise — the rejection bypasses the local `catch` (the code returns
the promise from inside `try`), so no diagnostic is printed here and the
archive file is NOT removed.  Only when `tar` succeeds is the archive file
removed (`await rm(tempArchivePath)`) after extraction. -/
def downloadAndExtract (world : String → Resp) (dirname : FPath) (url : String)
    (extractPath : FPath) (fs0 : FS) : DLRes :=
  let tempArchivePath := dirname ++ ["download", urlBasename url]
  let downloadPath := dirname ++ ["download"]
  let fs1 := if fs0.existsPath downloadPath then fs0 else fs0.mkdirRec downloadPath
  let r := world url
  if respOk r.status = false then
    let fs2 := if fs1.existsPath tempArchivePath then fs1.rmRec tempArchivePath else fs1
    { fs := fs2, err := some (Err.httpError r.status),
      log := ["Failed to download " ++ url] }
  else
    match r.readFailAt with
    | some k =>
      let fs2 := fs1.setFile tempArchivePath ⟨(r.chunks.take k).sum, 420⟩
      let fs3 := if fs2.existsPath tempArchivePath then fs2.rmRec tempArchivePath else fs2
      { fs := fs3, err := some Err.readError,
        log := ["Failed to download " ++ url] }
    | none =>
      let fs2 := fs1.setFile tempArchivePath ⟨r.chunks.sum, 420⟩
      if r.writeFail then
        { fs := fs2, err := some Err.writeError, log := [] }
      else if r.tarOk = false then
        { fs := fs2, err := some Err.tarFail, log := [] }
      else
        let fs3 := extractInto fs2 extractPath r.tarFiles r.tarDirs
        { fs := fs3.rmRec tempArchivePath, err := none, log := [] }

/-- Result of sequentially downloading a list of URLs. -/
structure SeqRes where
  fs : FS
  fetched : List String
  err : Option Err
  log : List String
deriving Repr, DecidableEq

/-- Source: the `for (const url of ANDROID_STDS) await downloadAndExtract`
loop — sequential, stopping at the first error. -/
def downloadSeq (world : String → Resp) (dirname extractPath : FPath) :
    List String → FS → SeqRes
  | [], fs => ⟨fs, [], none, []⟩
  | u :: us, fs =>
    let d := downloadAndExtract world dirname u extractPath fs
    match d.err with
    | some e => ⟨d.fs, [u], some e, d.log⟩
    | none =>
      let r := downloadSeq world dirname extractPath us d.fs
      ⟨r.fs, u :: r.fetched, r.err, d.log ++ r.log⟩

/-- Result of `run`: the final filesystem, the process exit code, the
propagated fatal error (if any), the URLs passed to `downloadAndExtract`
in order, the `console.error` log, and the assembler's warnings. -/
structure RunRes where
  fs : FS
  exit : Nat
  err : Option Err
  fetched : List String
  log : List String
  warnings : List String
deriving Repr, DecidableEq

/-- Source: `run()`.  The platformKey is resolved first — an absent
`PLATFORMS` entry exits with code 1 before anything touches the disk.
Then the extraction directory is recreated, the primary archive and (on
Linux only) the Android supplements are downloaded and extracted
sequentially, the toolchain is assembled, and when the primary executable
exists in the output it is `chmod 0o755`-ed.  Any error caught by the
`try` prints a diagnostic and exits with code 1. -/
def run (world : String → Resp) (dirname : FPath) (platform arch : String)
    (fs0 : FS) : RunRes :=
  let platformKey := platform ++ "-" ++ arch
  match PLATFORMS platformKey with
  | none =>
    { fs := fs0, exit := 1, err := some Err.unsupportedPlatform, fetched := [],
      log := ["Unsupported platform: " ++ platformKey], warnings := [] }
  | some mainUrl =>
    let extractPath := dirname ++ ["extract"]
    let fs1 := if fs0.existsPath extractPath then fs0.rmRec extractPath else fs0
    let fs2 := fs1.mkdirRec extractPath
    let d1 := downloadAndExtract world dirname mainUrl extractPath fs2
    match d1.err with
    | some e =>
      { fs := d1.fs, exit := 1, err := some e, fetched := [mainUrl],
        log := d1.log ++ ["Installation failed"], warnings := [] }
    | none =>
      let ds := downloadSeq world dirname extractPath (supplementaryUrls platform) d1.fs
      match ds.err with
      | some e =>
        { fs := ds.fs, exit := 1, err := some e, fetched := mainUrl :: ds.fetched,
          log := d1.log ++ ds.log ++ ["Installation failed"], warnings := [] }
      | none =>
        let s := setupIndependentRust dirname platform arch extractPath ds.fs
        let binPath := dirname ++ ["dist", "bin", BINARY_NAME]
        let fsF := if s.1.existsPath binPath then s.1.chmod binPath 0o755 else s.1
        { fs := fsF, exit := 0, err := none, fetched := mainUrl :: ds.fetched,
          log := d1.log ++ ds.log, warnings := s.2 }

/-! ## Canonical inputs used to instantiate the claims -/

/-- Canonical contents of the primary `rust-1.92.0-<T>` archive after
`tar --strip-components=1`: compiler binaries (`rustc` shipped with an
arbitrary mode `m`), a compiler library, the package-manager binary, the
host standard library component, and a stray top-level file. -/
def primaryContent (T : String) (m : Nat) : List (FPath × FileMeta) :=
  [ (["rustc", "bin", "rustc"], ⟨100, m⟩),
    (["rustc", "lib", "librustc-driver.so"], ⟨200, 420⟩),
    (["cargo", "bin", "cargo"], ⟨80, 493⟩),
    (["rust-std-" ++ T, "lib", "rustlib", T, "lib", "libstd.rlib"], ⟨300, 420⟩),
    (["install.sh"], ⟨5, 493⟩) ]

/-- Canonical contents of a `rust-std-1.92.0-<t>` supplementary archive
after `tar --strip-components=1`. -/
def androidContent (t : String) : List (FPath × FileMeta) :=
  [ (["rust-std-" ++ t, "lib", "rustlib", t, "lib", "libstd.rlib"], ⟨300, 420⟩) ]

/-- A well-behaved HTTP response carrying the given archive contents. -/
def okResp (c : List (FPath × FileMeta)) : Resp :=
  { status := 200, chunks := [1000], readFailAt := none, writeFail := false,
    tarOk := true, tarFiles := c, tarDirs := [] }

/-- A 404 response (no body, nothing extractable). -/
def notFoundResp : Resp :=
  { status := 404, chunks := [], readFailAt := none, writeFail := false,
    tarOk := false, tarFiles := [], tarDirs := [] }

/-- The canonical remote server: every URL of the `PLATFORMS` table serves
the canonical primary archive of its triple (with the primary executable
shipped with mode `m`), every `ANDROID_STDS` URL serves the matching
supplementary archive, anything else is 404. -/
def canonicalWorld (m : Nat) : String → Resp := fun url =>
  if url = "https://static.rust-lang.org/dist/rust-1.92.0-aarch64-apple-darwin.tar.xz" then
    okResp (primaryContent "aarch64-apple-darwin" m)
  else if url = "https://static.rust-lang.org/dist/rust-1.92.0-x86_64-apple-darwin.tar.xz" then
    okResp (primaryContent "x86_64-apple-darwin" m)
  else if url = "https://static.rust-lang.org/dist/rust-1.92.0-x86_64-unknown-linux-gnu.tar.xz" then
    okResp (primaryContent "x86_64-unknown-linux-gnu" m)
  else if url = "https://static.rust-lang.org/dist/rust-std-1.92.0-i686-linux-android.tar.gz" then
    okResp (androidContent "i686-linux-android")
  else if url = "https://static.rust-lang.org/dist/rust-std-1.92.0-x86_64-linux-android.tar.gz" then
    okResp (androidContent "x86_64-linux-android")
  else if url = "https://static.rust-lang.org/dist/rust-std-1.92.0-armv7-linux-androideabi.tar.xz" then
    okResp (androidContent "armv7-linux-androideabi")
  else if url = "https://static.rust-lang.org/dist/rust-std-1.92.0-aarch64-linux-android.tar.xz" then
    okResp (androidContent "aarch64-linux-android")
  else notFoundResp

/-- The installation root used to instantiate the claims (`__dirname`). -/
def outRoot : FPath := ["r"]

/-- The extraction staging root handed to the assembler
(`path.join(__dirname, "extract")`). -/
def stagingRoot : FPath := ["r", "extract"]

/-- Place a list of relative files under a base directory. -/
def placeFiles (base : FPath) (l : List (FPath × FileMeta)) : List Entry :=
  l.map fun e => Entry.file (base ++ e.1) e.2

/-- A staging tree for the assembler, parameterised by the archive
contents: `rb`/`rl` the compiler archive's `bin`/`lib` files, `cb` the
package-manager archive's `bin` files, `sl` the host standard-library
files below `rust-std-<T>/lib/rustlib`, and — when `withAndroid` — for
each Android target `t` the files `ac t` below
`rust-std-<t>/lib/rustlib/<t>`. -/
def stagingFS (T : String) (rb rl cb sl : List (FPath × FileMeta))
    (ac : String → List (FPath × FileMeta)) (withAndroid : Bool) : FS :=
  ⟨placeFiles (stagingRoot ++ ["rustc", "bin"]) rb
    ++ placeFiles (stagingRoot ++ ["rustc", "lib"]) rl
    ++ placeFiles (stagingRoot ++ ["cargo", "bin"]) cb
    ++ placeFiles (stagingRoot ++ ["rust-std-" ++ T, "lib", "rustlib"]) sl
    ++ (if withAndroid then
          androidTargets.flatMap fun t =>
            placeFiles (stagingRoot ++ ["rust-std-" ++ t, "lib", "rustlib", t]) (ac t)
        else [])⟩

/-- A successful (200) response with a zero-length body; `tar` fails on
the resulting empty file. -/
def emptyBodyResp : Resp :=
  { status := 200, chunks := [], readFailAt := none, writeFail := false,
    tarOk := false, tarFiles := [], tarDirs := [] }

/-- A successful (200) response whose local write stream reports an error
after the body was consumed (for example, the disk filling up). -/
def writeFailResp : Resp :=
  { status := 200, chunks := [7], readFailAt := none, writeFail := true,
    tarOk := true, tarFiles := [], tarDirs := [] }

/-- A minimal staging tree holding only the primary executable, used to
exercise the assembler directly. -/
def minimalStaging : FS :=
  ⟨placeFiles (stagingRoot ++ ["rustc", "bin"]) [(["rustc"], ⟨1, 420⟩)]⟩


/-- The assembler applied to the parametric staging tree: the host triple
is derived from the platformKey exactly as the source does, and the
Android portion of the staging tree is present exactly when the host OS is
`linux` (matching which archives the orchestrator fetches). -/
def assembledFS (platform arch : String) (rb rl cb sl : List (FPath × FileMeta))
    (ac : String → List (FPath × FileMeta)) : FS :=
  (setupIndependentRust outRoot platform arch stagingRoot
    (stagingFS (targetTripleOf (platform ++ "-" ++ arch)) rb rl cb sl ac
      (decide (platform = "linux")))).1

/-! ## Basic lemmas about the filesystem model -/

@[simp] theorem dropPre_nil (q : FPath) : dropPre [] q = some q := rfl

@[simp] theorem dropPre_cons_nil (a : String) (p : FPath) :
    dropPre (a :: p) [] = none := rfl

@[simp] theorem dropPre_cons_cons (a b : String) (p q : FPath) :
    dropPre (a :: p) (b :: q) = if a = b then dropPre p q else none := rfl

@[simp] theorem dropPre_append_self (p q : FPath) : dropPre p (p ++ q) = some q := by
  induction p with
  | nil => rfl
  | cons a p ih => simp [ih]

@[simp] theorem pre_append_self (p q : FPath) : pre p (p ++ q) = true := by
  simp [pre]

@[simp] theorem pre_refl (p : FPath) : pre p p = true := by
  simpa using pre_append_self p []

@[simp] theorem Entry.path_file (p : FPath) (m : FileMeta) :
    (Entry.file p m).path = p := rfl

@[simp] theorem Entry.path_dir (p : FPath) : (Entry.dir p).path = p := rfl

@[simp] theorem Entry.relocate_file (src dest p : FPath) (m : FileMeta) :
    Entry.relocate src dest (Entry.file p m)
      = (dropPre src p).map fun r => Entry.file (dest ++ r) m := rfl

@[simp] theorem Entry.relocate_dir (src dest p : FPath) :
    Entry.relocate src dest (Entry.dir p)
      = (dropPre src p).map fun r => Entry.dir (dest ++ r) := rfl

@[simp] theorem filterMap_some_fn {α β : Type} (f : α → β) (l : List α) :
    (l.filterMap fun x => some (f x)) = l.map f := by
  induction l with
  | nil => rfl
  | cons a l ih => simp [List.filterMap_cons, ih]

@[simp] theorem filterMap_none_fn {α β : Type} (l : List α) :
    (l.filterMap fun _ => (none : Option β)) = [] := by
  induction l with
  | nil => rfl
  | cons a l ih => simp [List.filterMap_cons, ih]

@[simp] theorem any_const_false {α : Type} (l : List α) :
    (l.any fun _ => false) = false := by
  induction l with
  | nil => rfl
  | cons a l ih => simp [ih]

theorem any_const_true_of_ne_nil {α : Type} {l : List α} (h : l ≠ []) :
    (l.any fun _ => true) = true := by
  cases l with
  | nil => exact absurd rfl h
  | cons a l => simp

/-- After `if exists then rmSync` the path is gone in either branch. -/
theorem existsPath_rm_if (fs : FS) (p : FPath) :
    ((if fs.existsPath p then fs.rmRec p else fs)).existsPath p = false := by
  by_cases h : fs.existsPath p = true
  · simp only [h, if_true]
    simp only [FS.existsPath, FS.rmRec]
    rw [List.any_eq_false]
    intro e he
    rcases List.mem_filter.mp he with ⟨-, hkeep⟩
    simpa using hkeep
  · simp only [h]
    simpa using h

/-- Removing a subtree removes the path itself. -/
theorem existsPath_rmRec_self (fs : FS) (p : FPath) :
    (fs.rmRec p).existsPath p = false := by
  simp only [FS.existsPath, FS.rmRec]
  rw [List.any_eq_false]
  intro e he
  rcases List.mem_filter.mp he with ⟨-, hkeep⟩
  simpa using hkeep

/-! ## Claim theorems -/

/-- C3: for every platformKey outside the supported set, `run` fails with
`UnsupportedPlatform`, terminates with exit status 1, and performs no
filesystem write whatsoever — the result is the initial filesystem,
untouched, with only the diagnostic printed. -/
theorem unsupported_platform_no_side_effects
    (world : String → Resp) (dirname : FPath) (platform arch : String) (fs0 : FS)
    (h : PLATFORMS (platform ++ "-" ++ arch) = none) :
    run world dirname platform arch fs0 =
      { fs := fs0, exit := 1, err := some Err.unsupportedPlatform, fetched := [],
        log := ["Unsupported platform: " ++ (platform ++ "-" ++ arch)],
        warnings := [] } := by
  unfold run
  simp only [h]

/-- Witness for C3 at the concrete unsupported platformKey `win32-x64`. -/
theorem unsupported_platform_no_side_effects_witness :
    run (fun _ => notFoundResp) outRoot "win32" "x64" ⟨[]⟩ =
      { fs := ⟨[]⟩, exit := 1, err := some Err.unsupportedPlatform, fetched := [],
        log := ["Unsupported platform: " ++ ("win32" ++ "-" ++ "x64")],
        warnings := [] } :=
  unsupported_platform_no_side_effects (fun _ => notFoundResp) outRoot "win32" "x64"
    ⟨[]⟩ (by decide)

/-- C4: a fetch answered with a non-success HTTP status fails with
`HttpError` carrying that status, and no file is left at the destination
path — the local catch removes whatever sat at that path before
propagating the error. -/
theorem fetch_http_error_cleanup
    (world : String → Resp) (dirname : FPath) (url : String) (extractPath : FPath)
    (fs0 : FS) (h : respOk (world url).status = false) :
    (downloadAndExtract world dirname url extractPath fs0).err
        = some (Err.httpError (world url).status)
    ∧ (downloadAndExtract world dirname url extractPath fs0).fs.existsPath
        (dirname ++ ["download", urlBasename url]) = false := by
  constructor
  · unfold downloadAndExtract
    simp [h]
  · unfold downloadAndExtract
    simp only [h, if_true]
    exact existsPath_rm_if _ _

/-- Witness for C4: a 404 response, concretely. -/
theorem fetch_http_error_cleanup_witness :
    (downloadAndExtract (fun _ => notFoundResp) outRoot "http://x/y.tar.xz" stagingRoot
        ⟨[]⟩).err = some (Err.httpError 404)
    ∧ (downloadAndExtract (fun _ => notFoundResp) outRoot "http://x/y.tar.xz" stagingRoot
        ⟨[]⟩).fs.existsPath (outRoot ++ ["download", urlBasename "http://x/y.tar.xz"])
        = false :=
  fetch_http_error_cleanup (fun _ => notFoundResp) outRoot "http://x/y.tar.xz"
    stagingRoot ⟨[]⟩ (by decide)

/-- C10: whenever `downloadAndExtract` completes without error, the
temporary archive file is gone from the download staging directory (it is
removed right after a successful extraction). -/
theorem download_success_removes_archive
    (world : String → Resp) (dirname : FPath) (url : String) (extractPath : FPath)
    (fs0 : FS)
    (h : (downloadAndExtract world dirname url extractPath fs0).err = none) :
    (downloadAndExtract world dirname url extractPath fs0).fs.existsPath
      (dirname ++ ["download", urlBasename url]) = false := by
  unfold downloadAndExtract at h ⊢
  cases hstat : respOk (world url).status with
  | false => simp [hstat] at h
  | true =>
    cases hrf : (world url).readFailAt with
    | some k => simp [hstat, hrf] at h
    | none =>
      cases hwf : (world url).writeFail with
      | true => simp [hstat, hrf, hwf] at h
      | false =>
        cases hto : (world url).tarOk with
        | false => simp [hstat, hrf, hwf, hto] at h
        | true =>
          simp only [hstat, hrf, hwf, hto, Bool.true_eq_false, Bool.false_eq_true,
            if_false]
          exact existsPath_rmRec_self _ _

/-- C5 (divergence witness): on a 200 response with an empty body,
`downloadAndExtract` raises no `EmptyDownload` — it writes a zero-byte
file, then fails at the `tar` step, and the zero-byte file is left at the
destination path (the promise rejection bypasses the cleanup catch). -/
theorem empty_download_divergence :
    (downloadAndExtract (fun _ => emptyBodyResp) outRoot "http://x/y.tar.xz" stagingRoot
        ⟨[]⟩).err = some Err.tarFail
    ∧ (downloadAndExtract (fun _ => emptyBodyResp) outRoot "http://x/y.tar.xz" stagingRoot
        ⟨[]⟩).err ≠ some Err.emptyDownload
    ∧ (downloadAndExtract (fun _ => emptyBodyResp) outRoot "http://x/y.tar.xz" stagingRoot
        ⟨[]⟩).fs.existsPath ["r", "download", "y.tar.xz"] = true
    ∧ (downloadAndExtract (fun _ => emptyBodyResp) outRoot "http://x/y.tar.xz" stagingRoot
        ⟨[]⟩).fs.fileMeta ["r", "download", "y.tar.xz"] = some ⟨0, 420⟩ := by
  decide

/-- C9 (divergence witness): when the write stream fails, the run prints
its diagnostic and exits with status 1, but the partially-written
temporary archive file is NOT removed — the promise rejection bypasses
the `catch` that performs the cleanup. -/
theorem write_error_leaves_partial_archive :
    (run (fun _ => writeFailResp) outRoot "darwin" "arm64" ⟨[]⟩).exit = 1
    ∧ (run (fun _ => writeFailResp) outRoot "darwin" "arm64" ⟨[]⟩).err
        = some Err.writeError
    ∧ (run (fun _ => writeFailResp) outRoot "darwin" "arm64" ⟨[]⟩).log
        = ["Installation failed"]
    ∧ (run (fun _ => writeFailResp) outRoot "darwin" "arm64" ⟨[]⟩).fs.existsPath
        ["r", "download", "rust-1.92.0-aarch64-apple-darwin.tar.xz"] = true
    ∧ (run (fun _ => writeFailResp) outRoot "darwin" "arm64" ⟨[]⟩).fs.fileMeta
        ["r", "download", "rust-1.92.0-aarch64-apple-darwin.tar.xz"] = some ⟨7, 420⟩ := by
  decide

/-- C7 (counterexample): for the unmapped platformKey `windows-x64` the
derived triple is empty, yet the assembler does not fail — invoked
directly it warns about the missing sources and still produces the final
output tree, including the copied primary executable. -/
theorem assembler_proceeds_on_unmapped_key :
    targetTripleOf "windows-x64" = ""
    ∧ (setupIndependentRust outRoot "windows" "x64" stagingRoot minimalStaging).1.existsPath
        ["r", "dist"] = true
    ∧ (setupIndependentRust outRoot "windows" "x64" stagingRoot minimalStaging).1.isFile
        ["r", "dist", "bin", "rustc"] = true
    ∧ (setupIndependentRust outRoot "windows" "x64" stagingRoot minimalStaging).2
        = ["Warning: Source not found: r/extract/rustc/lib",
           "Warning: Source not found: r/extract/cargo/bin",
           "Warning: Source not found: r/extract/rust-std-/lib/rustlib"] := by
  decide

/-- C7 (amended): triple derivation is a pure function with no fallback —
it yields the empty triple exactly for the platformKeys absent from
`PLATFORMS` — and for those platformKeys the orchestrator (not the
assembler) raises `UnsupportedPlatform` and exits before any assembly, the
filesystem untouched. -/
theorem empty_triple_iff_unsupported :
    (∀ pk, targetTripleOf pk = "" ↔ PLATFORMS pk = none)
    ∧ (∀ (world : String → Resp) (dirname : FPath) (platform arch : String) (fs0 : FS),
        targetTripleOf (platform ++ "-" ++ arch) = "" →
        (run world dirname platform arch fs0).err = some Err.unsupportedPlatform
        ∧ (run world dirname platform arch fs0).exit = 1
        ∧ (run world dirname platform arch fs0).fs = fs0) := by
  have hiff : ∀ pk, targetTripleOf pk = "" ↔ PLATFORMS pk = none := by
    intro pk
    unfold targetTripleOf PLATFORMS
    split_ifs <;> simp_all
  refine ⟨hiff, ?_⟩
  intro world dirname platform arch fs0 h
  have hp : PLATFORMS (platform ++ "-" ++ arch) = none := (hiff _).mp h
  unfold run
  simp [hp]

/-- Witness for the amended C7 at the concrete platformKey `windows-x64`. -/
theorem empty_triple_iff_unsupported_witness :
    (run (fun _ => notFoundResp) outRoot "windows" "x64" ⟨[]⟩).err
        = some Err.unsupportedPlatform
    ∧ (run (fun _ => notFoundResp) outRoot "windows" "x64" ⟨[]⟩).exit = 1
    ∧ (run (fun _ => notFoundResp) outRoot "windows" "x64" ⟨[]⟩).fs = ⟨[]⟩ :=
  empty_triple_iff_unsupported.2 (fun _ => notFoundResp) outRoot "windows" "x64"
    ⟨[]⟩ (by decide)

/-- C8: a missing source subtree makes `copyDir` log a warning and skip
the copy, leaving the filesystem unchanged; and assembly never fails for
this reason — even with every source missing, the assembler runs through
all its steps, emits one warning per missing source (in step order) and
still produces the final output directory. -/
theorem missing_source_warn_skip_continue :
    (∀ (fs : FS) (w : List String) (src dest : FPath), fs.existsPath src = false →
        copyDir (fs, w) src dest
          = (fs, w ++ ["Warning: Source not found: " ++ showPath src]))
    ∧ ((setupIndependentRust outRoot "darwin" "arm64" stagingRoot ⟨[]⟩).2
        = ["Warning: Source not found: r/extract/rustc/bin",
           "Warning: Source not found: r/extract/rustc/lib",
           "Warning: Source not found: r/extract/cargo/bin",
           "Warning: Source not found: r/extract/rust-std-aarch64-apple-darwin/lib/rustlib"]
       ∧ (setupIndependentRust outRoot "darwin" "arm64" stagingRoot ⟨[]⟩).1.existsPath
           ["r", "dist"] = true)
    ∧ ((setupIndependentRust outRoot "linux" "x64" stagingRoot ⟨[]⟩).2
        = ["Warning: Source not found: r/extract/rustc/bin",
           "Warning: Source not found: r/extract/rustc/lib",
           "Warning: Source not found: r/extract/cargo/bin",
           "Warning: Source not found: r/extract/rust-std-x86_64-unknown-linux-gnu/lib/rustlib",
           "Warning: Source not found: r/extract/rust-std-i686-linux-android/lib/rustlib/i686-linux-android",
           "Warning: Source not found: r/extract/rust-std-x86_64-linux-android/lib/rustlib/x86_64-linux-android",
           "Warning: Source not found: r/extract/rust-std-armv7-linux-androideabi/lib/rustlib/armv7-linux-androideabi",
           "Warning: Source not found: r/extract/rust-std-aarch64-linux-android/lib/rustlib/aarch64-linux-android"]
       ∧ (setupIndependentRust outRoot "linux" "x64" stagingRoot ⟨[]⟩).1.existsPath
           ["r", "dist"] = true) := by
  refine ⟨?_, by decide, by decide⟩
  intro fs w src dest h
  unfold copyDir
  simp only [h]
  simp

/-- Witness for C8 at a concrete missing source. -/
theorem missing_source_warn_skip_continue_witness :
    copyDir (⟨[]⟩, []) ["a"] ["b"]
      = (⟨[]⟩, ["Warning: Source not found: " ++ showPath ["a"]]) :=
  missing_source_warn_skip_continue.1 ⟨[]⟩ [] ["a"] ["b"] (by decide)

/-- The basenames of the seven distribution URLs (used to locate the
temporary archive files in proofs about canonical runs). -/
theorem urlBasenames :
    urlBasename "https://static.rust-lang.org/dist/rust-1.92.0-aarch64-apple-darwin.tar.xz"
      = "rust-1.92.0-aarch64-apple-darwin.tar.xz"
    ∧ urlBasename "https://static.rust-lang.org/dist/rust-1.92.0-x86_64-apple-darwin.tar.xz"
      = "rust-1.92.0-x86_64-apple-darwin.tar.xz"
    ∧ urlBasename "https://static.rust-lang.org/dist/rust-1.92.0-x86_64-unknown-linux-gnu.tar.xz"
      = "rust-1.92.0-x86_64-unknown-linux-gnu.tar.xz"
    ∧ urlBasename "https://static.rust-lang.org/dist/rust-std-1.92.0-i686-linux-android.tar.gz"
      = "rust-std-1.92.0-i686-linux-android.tar.gz"
    ∧ urlBasename "https://static.rust-lang.org/dist/rust-std-1.92.0-x86_64-linux-android.tar.gz"
      = "rust-std-1.92.0-x86_64-linux-android.tar.gz"
    ∧ urlBasename "https://static.rust-lang.org/dist/rust-std-1.92.0-armv7-linux-androideabi.tar.xz"
      = "rust-std-1.92.0-armv7-linux-androideabi.tar.xz"
    ∧ urlBasename "https://static.rust-lang.org/dist/rust-std-1.92.0-aarch64-linux-android.tar.xz"
      = "rust-std-1.92.0-aarch64-linux-android.tar.xz" := by decide

/-- Witness for C10: a concrete successful download-and-extract, after
which the archive is gone from the download staging directory. -/
theorem download_success_removes_archive_witness :
    (downloadAndExtract (canonicalWorld 420) outRoot
        "https://static.rust-lang.org/dist/rust-1.92.0-aarch64-apple-darwin.tar.xz"
        (outRoot ++ ["extract"]) ⟨[]⟩).fs.existsPath
      (outRoot ++ ["download",
        urlBasename "https://static.rust-lang.org/dist/rust-1.92.0-aarch64-apple-darwin.tar.xz"])
      = false :=
  download_success_removes_archive (canonicalWorld 420) outRoot
    "https://static.rust-lang.org/dist/rust-1.92.0-aarch64-apple-darwin.tar.xz"
    (outRoot ++ ["extract"]) ⟨[]⟩ (by decide)

/-- C2: supplementary archives are selected if and only if the host OS is
Linux — the fetch list is nonempty exactly for `linux` — and canonical
runs show it end to end: on both Darwin platforms only the primary URL is
fetched and only the host triple is installed under `lib/rustlib/`, while
on Linux the four Android URLs are fetched after the primary one and the
four Android triples are installed next to the host triple. -/
theorem supplementary_iff_linux :
    (∀ platform, supplementaryUrls platform ≠ [] ↔ platform = "linux")
    ∧ ((run (canonicalWorld 420) outRoot "darwin" "arm64" ⟨[]⟩).fetched
        = ["https://static.rust-lang.org/dist/rust-1.92.0-aarch64-apple-darwin.tar.xz"]
       ∧ (run (canonicalWorld 420) outRoot "darwin" "arm64" ⟨[]⟩).fs.entriesUnder
           ["r", "dist", "lib", "rustlib"] = ["aarch64-apple-darwin"])
    ∧ ((run (canonicalWorld 420) outRoot "darwin" "x64" ⟨[]⟩).fetched
        = ["https://static.rust-lang.org/dist/rust-1.92.0-x86_64-apple-darwin.tar.xz"]
       ∧ (run (canonicalWorld 420) outRoot "darwin" "x64" ⟨[]⟩).fs.entriesUnder
           ["r", "dist", "lib", "rustlib"] = ["x86_64-apple-darwin"])
    ∧ ((run (canonicalWorld 420) outRoot "linux" "x64" ⟨[]⟩).fetched
        = "https://static.rust-lang.org/dist/rust-1.92.0-x86_64-unknown-linux-gnu.tar.xz"
          :: ANDROID_STDS
       ∧ (run (canonicalWorld 420) outRoot "linux" "x64" ⟨[]⟩).fs.entriesUnder
           ["r", "dist", "lib", "rustlib"]
         = ["aarch64-linux-android", "armv7-linux-androideabi", "x86_64-linux-android",
            "i686-linux-android", "x86_64-unknown-linux-gnu"]) := by
  refine ⟨?_, by decide, by decide, by decide⟩
  intro platform
  by_cases h : platform = "linux" <;> simp [supplementaryUrls, h, ANDROID_STDS]

set_option maxHeartbeats 4000000 in
/-- C6: for every permission mode `m` the source archive ships the
primary executable with, a successful full run leaves the executable at
`dist/bin/rustc` with mode `0o755` (and exit status 0), on each of the
three supported platforms. -/
theorem chmod_0755_regardless_of_shipped_mode (m : Nat) :
    ((run (canonicalWorld m) outRoot "darwin" "arm64" ⟨[]⟩).exit = 0
     ∧ (run (canonicalWorld m) outRoot "darwin" "arm64" ⟨[]⟩).fs.fileMeta
         ["r", "dist", "bin", "rustc"] = some ⟨100, 0o755⟩)
    ∧ ((run (canonicalWorld m) outRoot "darwin" "x64" ⟨[]⟩).exit = 0
       ∧ (run (canonicalWorld m) outRoot "darwin" "x64" ⟨[]⟩).fs.fileMeta
           ["r", "dist", "bin", "rustc"] = some ⟨100, 0o755⟩)
    ∧ ((run (canonicalWorld m) outRoot "linux" "x64" ⟨[]⟩).exit = 0
       ∧ (run (canonicalWorld m) outRoot "linux" "x64" ⟨[]⟩).fs.fileMeta
           ["r", "dist", "bin", "rustc"] = some ⟨100, 0o755⟩) := by
  refine ⟨?_, ?_, ?_⟩ <;>
    simp [run, downloadAndExtract, canonicalWorld, okResp, notFoundResp,
      primaryContent, androidContent, supplementaryUrls, downloadSeq,
      setupIndependentRust, copyDir, extractInto, urlBasenames.1,
      urlBasenames.2.1, urlBasenames.2.2.1, urlBasenames.2.2.2.1,
      urlBasenames.2.2.2.2.1, urlBasenames.2.2.2.2.2.1, urlBasenames.2.2.2.2.2.2,
      PLATFORMS, ANDROID_STDS, androidTargets, targetTripleOf, BINARY_NAME,
      outRoot, stagingRoot, FS.existsPath, FS.rmRec, FS.mkdirRec, FS.setFile,
      FS.chmod, FS.copyRec, FS.fileMeta, FS.entriesUnder, FS.isFile, pre,
      showPath, respOk]

/-! ## The assembler layout (claim C1) -/

@[simp] theorem any_const_true {α : Type} (l : List α) :
    (l.any fun _ => true) = !l.isEmpty := by cases l <;> simp

theorem isEmpty_eq_false_of_ne_nil {α : Type} {l : List α} (h : l ≠ []) :
    l.isEmpty = false := by cases l with
  | nil => exact absurd rfl h
  | cons a l => rfl

@[simp] theorem true_eq_true_prop : (true = true) = True := by simp

@[simp] theorem ite_true_cond {α : Type} {inst : Decidable (true = true)} (a b : α) :
    @ite α (true = true) inst a b = a := if_pos rfl

@[simp] theorem ite_false_cond {α : Type} {inst : Decidable (false = true)} (a b : α) :
    @ite α (false = true) inst a b = b := if_neg (by simp)

@[simp] theorem any_map_fn {α β : Type} (f : α → β) (p : β → Bool) (l : List α) :
    (l.map f).any p = l.any fun x => p (f x) := by
  induction l with
  | nil => rfl
  | cons a l ih => simp [ih]

@[simp] theorem filterMap_map_fn {α β γ : Type} (f : α → β) (g : β → Option γ)
    (l : List α) : (l.map f).filterMap g = l.filterMap fun x => g (f x) := by
  induction l with
  | nil => rfl
  | cons a l ih => simp [List.filterMap_cons, ih]

@[simp] theorem filter_map_fn {α β : Type} (f : α → β) (p : β → Bool) (l : List α) :
    (l.map f).filter p = (l.filter fun x => p (f x)).map f := by
  induction l with
  | nil => rfl
  | cons a l ih => by_cases h : p (f a) <;> simp [List.filter_cons, h, ih]

@[simp] theorem map_map_fn {α β γ : Type} (f : α → β) (g : β → γ) (l : List α) :
    (l.map f).map g = l.map fun x => g (f x) := by
  induction l with
  | nil => rfl
  | cons a l ih => simp [ih]

theorem isFile_of_mem {fs : FS} {p : FPath} {m : FileMeta}
    (h : Entry.file p m ∈ fs.entries) : fs.isFile p = true := by
  simp only [FS.isFile]
  exact List.any_eq_true.mpr ⟨_, h, by simp⟩

theorem mem_placeFiles (base : FPath) {l : List (FPath × FileMeta)}
    {x : FPath × FileMeta} (hx : x ∈ l) :
    Entry.file (base ++ x.1) x.2 ∈ placeFiles base l :=
  List.mem_map.mpr ⟨x, hx, rfl⟩

theorem entriesUnder_nodup (fs : FS) (d : FPath) : (fs.entriesUnder d).Nodup :=
  List.nodup_dedup _

section COneProofs

attribute [local irreducible] setupIndependentRust
  copyDir FS.copyRec FS.existsPath FS.rmRec FS.mkdirRec
  Entry.relocate dropPre pre FS.entriesUnder FS.isFile FS.fileMeta

set_option maxHeartbeats 1000000 in
theorem assembled_darwin_arm64 (rb rl cb sl : List (FPath × FileMeta))
    (ac : String → List (FPath × FileMeta))
    (hrb0 : rb.isEmpty = false) (hrl0 : rl.isEmpty = false)
    (hcb0 : cb.isEmpty = false) (hsl0 : sl.isEmpty = false) :
    assembledFS "darwin" "arm64" rb rl cb sl ac =
      ⟨placeFiles ["r", "dist", "lib", "rustlib"] sl ++
          (placeFiles ["r", "dist", "bin"] cb ++
            (placeFiles ["r", "dist", "lib"] rl ++
              (placeFiles ["r", "dist", "bin"] rb ++
                [Entry.dir ["r", "dist", "lib"], Entry.dir ["r", "dist", "bin"]]))) ++
        Entry.dir ["r", "dist"] ::
          (placeFiles ["r", "extract", "dist", "lib", "rustlib"] sl ++
            (placeFiles ["r", "extract", "dist", "bin"] cb ++
              (placeFiles ["r", "extract", "dist", "lib"] rl ++
                (placeFiles ["r", "extract", "dist", "bin"] rb ++
                  Entry.dir ["r", "extract", "dist", "lib"] ::
                    Entry.dir ["r", "extract", "dist", "bin"] ::
                      (placeFiles ["r", "extract", "rustc", "bin"] rb ++
                          placeFiles ["r", "extract", "rustc", "lib"] rl ++
                        placeFiles ["r", "extract", "cargo", "bin"] cb ++
                        placeFiles ["r", "extract", "rust-std-aarch64-apple-darwin", "lib", "rustlib"] sl)))))⟩ := by
  simp only [assembledFS, setupIndependentRust, copyDir, stagingFS, placeFiles,
    FS.existsPath, FS.copyRec, FS.rmRec, FS.mkdirRec, pre, targetTripleOf,
    androidTargets, outRoot, stagingRoot, List.flatMap_cons, List.flatMap_nil,
    List.foldl_cons, List.foldl_nil,
    List.any_append, any_map_fn, List.any_cons, List.any_nil, any_const_true,
    any_const_false, List.cons_append, List.nil_append, List.append_nil,
    List.filterMap_append, filterMap_map_fn, filterMap_some_fn, filterMap_none_fn,
    List.filterMap_cons, List.filterMap_nil, filter_map_fn, map_map_fn,
    Entry.path_file, Entry.path_dir, Entry.relocate_file, Entry.relocate_dir,
    dropPre_nil, dropPre_cons_nil, dropPre_cons_cons, dropPre_append_self,
    Option.isSome_some, Option.isSome_none, Option.map_some', Option.map_none',
    hrb0, hrl0, hcb0, hsl0,
    Bool.or_false, Bool.false_or, Bool.or_true, Bool.true_or, Bool.not_false,
    Bool.not_true, String.reduceEq, String.reduceAppend,
    decide_False, decide_True, Bool.false_eq_true, Bool.true_eq_false, if_false,
    if_true, true_eq_true_prop, ite_true_cond, ite_false_cond]

theorem layout_darwin_arm64 (rb rl cb sl : List (FPath × FileMeta))
    (ac : String → List (FPath × FileMeta))
    (hrb : ∃ me, ((["rustc"] : FPath), me) ∈ rb)
    (hrlne : rl ≠ []) (hcbne : cb ≠ []) (hslne : sl ≠ [])
    (hrlshape : ∀ e ∈ rl, e.1.head? ≠ some "rustlib")
    (hslshape : ∀ e ∈ sl, e.1.head? = some "aarch64-apple-darwin") :
    (assembledFS "darwin" "arm64" rb rl cb sl ac).isFile ["r", "dist", "bin", "rustc"] = true
    ∧ (assembledFS "darwin" "arm64" rb rl cb sl ac).existsPath ["r", "dist", "lib"] = true
    ∧ (assembledFS "darwin" "arm64" rb rl cb sl ac).existsPath
        ["r", "dist", "lib", "rustlib", "aarch64-apple-darwin"] = true
    ∧ (∀ s, s ∈ (assembledFS "darwin" "arm64" rb rl cb sl ac).entriesUnder
        ["r", "dist", "lib", "rustlib"] ↔ s = "aarch64-apple-darwin")
    ∧ ((assembledFS "darwin" "arm64" rb rl cb sl ac).entriesUnder
        ["r", "dist", "lib", "rustlib"]).length = 1 := by
  obtain ⟨me, hme⟩ := hrb
  have hrb0 := isEmpty_eq_false_of_ne_nil (List.ne_nil_of_mem hme)
  have hrl0 := isEmpty_eq_false_of_ne_nil hrlne
  have hcb0 := isEmpty_eq_false_of_ne_nil hcbne
  have hsl0 := isEmpty_eq_false_of_ne_nil hslne
  have hfs := assembled_darwin_arm64 rb rl cb sl ac hrb0 hrl0 hcb0 hsl0
  obtain ⟨x0, hx0⟩ := List.exists_mem_of_ne_nil sl hslne
  obtain ⟨tail0, htail0⟩ : ∃ t, x0.1 = "aarch64-apple-darwin" :: t := by
    cases hx : x0.1 with
    | nil =>
      have := hslshape x0 hx0
      rw [hx] at this
      simp at this
    | cons a t =>
      have := hslshape x0 hx0
      rw [hx] at this
      simp at this
      exact ⟨t, by rw [this]⟩
  have hiff : ∀ s, s ∈ (assembledFS "darwin" "arm64" rb rl cb sl ac).entriesUnder
      ["r", "dist", "lib", "rustlib"] ↔ s = "aarch64-apple-darwin" := by
    intro s
    rw [hfs]
    simp only [FS.entriesUnder, List.mem_dedup, placeFiles,
      List.filterMap_append, filterMap_map_fn, filterMap_some_fn, filterMap_none_fn,
      List.filterMap_cons, List.filterMap_nil,
      List.mem_append, List.mem_filterMap,
      List.cons_append, List.nil_append, List.append_nil,
      Entry.path_file, Entry.path_dir,
      dropPre_nil, dropPre_cons_nil, dropPre_cons_cons, dropPre_append_self,
      Option.some_bind, Option.none_bind,
      String.reduceEq, if_false, if_true, true_eq_true_prop,
      ite_true_cond, ite_false_cond]
    constructor
    · rintro (⟨a, ha, hha⟩ | ⟨a, ha, hha⟩)
      · rw [hslshape a ha] at hha
        exact (Option.some_inj.mp hha).symm
      · exfalso
        cases hx : a.1 with
        | nil =>
          rw [hx] at hha
          rw [dropPre_cons_nil, Option.none_bind] at hha
          exact Option.noConfusion hha
        | cons b t =>
          by_cases hb : b = "rustlib"
          · have := hrlshape a ha
            rw [hx, hb] at this
            simp at this
          · rw [hx] at hha
            rw [dropPre_cons_cons, if_neg (Ne.symm hb), Option.none_bind] at hha
            exact Option.noConfusion hha
    · rintro rfl
      exact Or.inl ⟨x0, hx0, by rw [htail0]; rfl⟩
  refine ⟨?_, ?_, ?_, hiff, ?_⟩
  · apply isFile_of_mem
    have hm : Entry.file ["r", "dist", "bin", "rustc"] me
        ∈ placeFiles ["r", "dist", "bin"] rb := by
      simpa using mem_placeFiles ["r", "dist", "bin"] hme
    rw [hfs]
    simp only [List.mem_append, List.mem_cons]
    tauto
  · rw [hfs]
    simp only [FS.existsPath, placeFiles, pre,
      List.any_append, any_map_fn, List.any_cons, List.any_nil, any_const_true,
      any_const_false, List.cons_append, List.nil_append, List.append_nil,
      Entry.path_file, Entry.path_dir,
      dropPre_nil, dropPre_cons_nil, dropPre_cons_cons, dropPre_append_self,
      Option.isSome_some, Option.isSome_none, hsl0,
      Bool.or_false, Bool.false_or, Bool.or_true, Bool.true_or, Bool.not_false,
      Bool.not_true, String.reduceEq, if_false, if_true, true_eq_true_prop,
      ite_true_cond, ite_false_cond]
  · rw [hfs]
    simp only [FS.existsPath, placeFiles, pre,
      List.any_append, any_map_fn, List.any_cons, List.any_nil, any_const_true,
      any_const_false, List.cons_append, List.nil_append, List.append_nil,
      Entry.path_file, Entry.path_dir,
      dropPre_nil, dropPre_cons_nil, dropPre_cons_cons, dropPre_append_self,
      Option.isSome_some, Option.isSome_none, hsl0,
      Bool.or_false, Bool.false_or, Bool.or_true, Bool.true_or, Bool.not_false,
      Bool.not_true, String.reduceEq, if_false, if_true, true_eq_true_prop,
      ite_true_cond, ite_false_cond]
    rw [Bool.or_eq_true]
    left
    rw [List.any_eq_true]
    refine ⟨x0, hx0, ?_⟩
    rw [htail0]
    simp
  · have hnd := entriesUnder_nodup (assembledFS "darwin" "arm64" rb rl cb sl ac)
      ["r", "dist", "lib", "rustlib"]
    have hperm : List.Perm ((assembledFS "darwin" "arm64" rb rl cb sl ac).entriesUnder
        ["r", "dist", "lib", "rustlib"]) ["aarch64-apple-darwin"] := by
      refine (List.perm_ext_iff_of_nodup hnd (by simp)).mpr ?_
      intro a
      rw [hiff a]
      simp
    simpa using hperm.length_eq

set_option maxHeartbeats 1000000 in
theorem assembled_darwin_x64 (rb rl cb sl : List (FPath × FileMeta))
    (ac : String → List (FPath × FileMeta))
    (hrb0 : rb.isEmpty = false) (hrl0 : rl.isEmpty = false)
    (hcb0 : cb.isEmpty = false) (hsl0 : sl.isEmpty = false) :
    assembledFS "darwin" "x64" rb rl cb sl ac =
      ⟨placeFiles ["r", "dist", "lib", "rustlib"] sl ++
          (placeFiles ["r", "dist", "bin"] cb ++
            (placeFiles ["r", "dist", "lib"] rl ++
              (placeFiles ["r", "dist", "bin"] rb ++
                [Entry.dir ["r", "dist", "lib"], Entry.dir ["r", "dist", "bin"]]))) ++
        Entry.dir ["r", "dist"] ::
          (placeFiles ["r", "extract", "dist", "lib", "rustlib"] sl ++
            (placeFiles ["r", "extract", "dist", "bin"] cb ++
              (placeFiles ["r", "extract", "dist", "lib"] rl ++
                (placeFiles ["r", "extract", "dist", "bin"] rb ++
                  Entry.dir ["r", "extract", "dist", "lib"] ::
                    Entry.dir ["r", "extract", "dist", "bin"] ::
                      (placeFiles ["r", "extract", "rustc", "bin"] rb ++
                          placeFiles ["r", "extract", "rustc", "lib"] rl ++
                        placeFiles ["r", "extract", "cargo", "bin"] cb ++
                        placeFiles ["r", "extract", "rust-std-x86_64-apple-darwin", "lib", "rustlib"] sl)))))⟩ := by
  simp only [assembledFS, setupIndependentRust, copyDir, stagingFS, placeFiles,
    FS.existsPath, FS.copyRec, FS.rmRec, FS.mkdirRec, pre, targetTripleOf,
    androidTargets, outRoot, stagingRoot, List.flatMap_cons, List.flatMap_nil,
    List.foldl_cons, List.foldl_nil,
    List.any_append, any_map_fn, List.any_cons, List.any_nil, any_const_true,
    any_const_false, List.cons_append, List.nil_append, List.append_nil,
    List.filterMap_append, filterMap_map_fn, filterMap_some_fn, filterMap_none_fn,
    List.filterMap_cons, List.filterMap_nil, filter_map_fn, map_map_fn,
    Entry.path_file, Entry.path_dir, Entry.relocate_file, Entry.relocate_dir,
    dropPre_nil, dropPre_cons_nil, dropPre_cons_cons, dropPre_append_self,
    Option.isSome_some, Option.isSome_none, Option.map_some', Option.map_none',
    hrb0, hrl0, hcb0, hsl0,
    Bool.or_false, Bool.false_or, Bool.or_true, Bool.true_or, Bool.not_false,
    Bool.not_true, String.reduceEq, String.reduceAppend,
    decide_False, decide_True, Bool.false_eq_true, Bool.true_eq_false, if_false,
    if_true, true_eq_true_prop, ite_true_cond, ite_false_cond]

theorem layout_darwin_x64 (rb rl cb sl : List (FPath × FileMeta))
    (ac : String → List (FPath × FileMeta))
    (hrb : ∃ me, ((["rustc"] : FPath), me) ∈ rb)
    (hrlne : rl ≠ []) (hcbne : cb ≠ []) (hslne : sl ≠ [])
    (hrlshape : ∀ e ∈ rl, e.1.head? ≠ some "rustlib")
    (hslshape : ∀ e ∈ sl, e.1.head? = some "x86_64-apple-darwin") :
    (assembledFS "darwin" "x64" rb rl cb sl ac).isFile ["r", "dist", "bin", "rustc"] = true
    ∧ (assembledFS "darwin" "x64" rb rl cb sl ac).existsPath ["r", "dist", "lib"] = true
    ∧ (assembledFS "darwin" "x64" rb rl cb sl ac).existsPath
        ["r", "dist", "lib", "rustlib", "x86_64-apple-darwin"] = true
    ∧ (∀ s, s ∈ (assembledFS "darwin" "x64" rb rl cb sl ac).entriesUnder
        ["r", "dist", "lib", "rustlib"] ↔ s = "x86_64-apple-darwin")
    ∧ ((assembledFS "darwin" "x64" rb rl cb sl ac).entriesUnder
        ["r", "dist", "lib", "rustlib"]).length = 1 := by
  obtain ⟨me, hme⟩ := hrb
  have hrb0 := isEmpty_eq_false_of_ne_nil (List.ne_nil_of_mem hme)
  have hrl0 := isEmpty_eq_false_of_ne_nil hrlne
  have hcb0 := isEmpty_eq_false_of_ne_nil hcbne
  have hsl0 := isEmpty_eq_false_of_ne_nil hslne
  have hfs := assembled_darwin_x64 rb rl cb sl ac hrb0 hrl0 hcb0 hsl0
  obtain ⟨x0, hx0⟩ := List.exists_mem_of_ne_nil sl hslne
  obtain ⟨tail0, htail0⟩ : ∃ t, x0.1 = "x86_64-apple-darwin" :: t := by
    cases hx : x0.1 with
    | nil =>
      have := hslshape x0 hx0
      rw [hx] at this
      simp at this
    | cons a t =>
      have := hslshape x0 hx0
      rw [hx] at this
      simp at this
      exact ⟨t, by rw [this]⟩
  have hiff : ∀ s, s ∈ (assembledFS "darwin" "x64" rb rl cb sl ac).entriesUnder
      ["r", "dist", "lib", "rustlib"] ↔ s = "x86_64-apple-darwin" := by
    intro s
    rw [hfs]
    simp only [FS.entriesUnder, List.mem_dedup, placeFiles,
      List.filterMap_append, filterMap_map_fn, filterMap_some_fn, filterMap_none_fn,
      List.filterMap_cons, List.filterMap_nil,
      List.mem_append, List.mem_filterMap,
      List.cons_append, List.nil_append, List.append_nil,
      Entry.path_file, Entry.path_dir,
      dropPre_nil, dropPre_cons_nil, dropPre_cons_cons, dropPre_append_self,
      Option.some_bind, Option.none_bind,
      String.reduceEq, if_false, if_true, true_eq_true_prop,
      ite_true_cond, ite_false_cond]
    constructor
    · rintro (⟨a, ha, hha⟩ | ⟨a, ha, hha⟩)
      · rw [hslshape a ha] at hha
        exact (Option.some_inj.mp hha).symm
      · exfalso
        cases hx : a.1 with
        | nil =>
          rw [hx] at hha
          rw [dropPre_cons_nil, Option.none_bind] at hha
          exact Option.noConfusion hha
        | cons b t =>
          by_cases hb : b = "rustlib"
          · have := hrlshape a ha
            rw [hx, hb] at this
            simp at this
          · rw [hx] at hha
            rw [dropPre_cons_cons, if_neg (Ne.symm hb), Option.none_bind] at hha
            exact Option.noConfusion hha
    · rintro rfl
      exact Or.inl ⟨x0, hx0, by rw [htail0]; rfl⟩
  refine ⟨?_, ?_, ?_, hiff, ?_⟩
  · apply isFile_of_mem
    have hm : Entry.file ["r", "dist", "bin", "rustc"] me
        ∈ placeFiles ["r", "dist", "bin"] rb := by
      simpa using mem_placeFiles ["r", "dist", "bin"] hme
    rw [hfs]
    simp only [List.mem_append, List.mem_cons]
    tauto
  · rw [hfs]
    simp only [FS.existsPath, placeFiles, pre,
      List.any_append, any_map_fn, List.any_cons, List.any_nil, any_const_true,
      any_const_false, List.cons_append, List.nil_append, List.append_nil,
      Entry.path_file, Entry.path_dir,
      dropPre_nil, dropPre_cons_nil, dropPre_cons_cons, dropPre_append_self,
      Option.isSome_some, Option.isSome_none, hsl0,
      Bool.or_false, Bool.false_or, Bool.or_true, Bool.true_or, Bool.not_false,
      Bool.not_true, String.reduceEq, if_false, if_true, true_eq_true_prop,
      ite_true_cond, ite_false_cond]
  · rw [hfs]
    simp only [FS.existsPath, placeFiles, pre,
      List.any_append, any_map_fn, List.any_cons, List.any_nil, any_const_true,
      any_const_false, List.cons_append, List.nil_append, List.append_nil,
      Entry.path_file, Entry.path_dir,
      dropPre_nil, dropPre_cons_nil, dropPre_cons_cons, dropPre_append_self,
      Option.isSome_some, Option.isSome_none, hsl0,
      Bool.or_false, Bool.false_or, Bool.or_true, Bool.true_or, Bool.not_false,
      Bool.not_true, String.reduceEq, if_false, if_true, true_eq_true_prop,
      ite_true_cond, ite_false_cond]
    rw [Bool.or_eq_true]
    left
    rw [List.any_eq_true]
    refine ⟨x0, hx0, ?_⟩
    rw [htail0]
    simp
  · have hnd := entriesUnder_nodup (assembledFS "darwin" "x64" rb rl cb sl ac)
      ["r", "dist", "lib", "rustlib"]
    have hperm : List.Perm ((assembledFS "darwin" "x64" rb rl cb sl ac).entriesUnder
        ["r", "dist", "lib", "rustlib"]) ["x86_64-apple-darwin"] := by
      refine (List.perm_ext_iff_of_nodup hnd (by simp)).mpr ?_
      intro a
      rw [hiff a]
      simp
    simpa using hperm.length_eq

set_option maxHeartbeats 1600000 in
theorem assembled_linux_x64 (rb rl cb sl : List (FPath × FileMeta))
    (ac : String → List (FPath × FileMeta))
    (hrb0 : rb.isEmpty = false) (hrl0 : rl.isEmpty = false)
    (hcb0 : cb.isEmpty = false) (hsl0 : sl.isEmpty = false)
    (ha1 : (ac "i686-linux-android").isEmpty = false)
    (ha2 : (ac "x86_64-linux-android").isEmpty = false)
    (ha3 : (ac "armv7-linux-androideabi").isEmpty = false)
    (ha4 : (ac "aarch64-linux-android").isEmpty = false) :
    assembledFS "linux" "x64" rb rl cb sl ac =
      ⟨placeFiles ["r", "dist", "lib", "rustlib", "aarch64-linux-android"]
            (ac "aarch64-linux-android") ++
          (placeFiles ["r", "dist", "lib", "rustlib", "armv7-linux-androideabi"]
              (ac "armv7-linux-androideabi") ++
            (placeFiles ["r", "dist", "lib", "rustlib", "x86_64-linux-android"]
                (ac "x86_64-linux-android") ++
              (placeFiles ["r", "dist", "lib", "rustlib", "i686-linux-android"]
                  (ac "i686-linux-android") ++
                (placeFiles ["r", "dist", "lib", "rustlib"] sl ++
                  (placeFiles ["r", "dist", "bin"] cb ++
                    (placeFiles ["r", "dist", "lib"] rl ++
                      (placeFiles ["r", "dist", "bin"] rb ++
                        [Entry.dir ["r", "dist", "lib"], Entry.dir ["r", "dist", "bin"]]))))))) ++
        Entry.dir ["r", "dist"] ::
          (placeFiles ["r", "extract", "dist", "lib", "rustlib", "aarch64-linux-android"]
              (ac "aarch64-linux-android") ++
            (placeFiles ["r", "extract", "dist", "lib", "rustlib", "armv7-linux-androideabi"]
                (ac "armv7-linux-androideabi") ++
              (placeFiles ["r", "extract", "dist", "lib", "rustlib", "x86_64-linux-android"]
                  (ac "x86_64-linux-android") ++
                (placeFiles ["r", "extract", "dist", "lib", "rustlib", "i686-linux-android"]
                    (ac "i686-linux-android") ++
                  (placeFiles ["r", "extract", "dist", "lib", "rustlib"] sl ++
                    (placeFiles ["r", "extract", "dist", "bin"] cb ++
                      (placeFiles ["r", "extract", "dist", "lib"] rl ++
                        (placeFiles ["r", "extract", "dist", "bin"] rb ++
                          Entry.dir ["r", "extract", "dist", "lib"] ::
                            Entry.dir ["r", "extract", "dist", "bin"] ::
                              (placeFiles ["r", "extract", "rustc", "bin"] rb ++
                                  placeFiles ["r", "extract", "rustc", "lib"] rl ++
                                placeFiles ["r", "extract", "cargo", "bin"] cb ++
                                placeFiles ["r", "extract", "rust-std-x86_64-unknown-linux-gnu",
                                  "lib", "rustlib"] sl ++
                                (placeFiles ["r", "extract", "rust-std-i686-linux-android",
                                    "lib", "rustlib", "i686-linux-android"]
                                    (ac "i686-linux-android") ++
                                  (placeFiles ["r", "extract", "rust-std-x86_64-linux-android",
                                      "lib", "rustlib", "x86_64-linux-android"]
                                      (ac "x86_64-linux-android") ++
                                    (placeFiles ["r", "extract", "rust-std-armv7-linux-androideabi",
                                        "lib", "rustlib", "armv7-linux-androideabi"]
                                        (ac "armv7-linux-androideabi") ++
                                      placeFiles ["r", "extract", "rust-std-aarch64-linux-android",
                                        "lib", "rustlib", "aarch64-linux-android"]
                                        (ac "aarch64-linux-android")))))))))))))⟩ := by
  simp only [assembledFS, setupIndependentRust, copyDir, stagingFS, placeFiles,
    FS.existsPath, FS.copyRec, FS.rmRec, FS.mkdirRec, pre, targetTripleOf,
    androidTargets, outRoot, stagingRoot, List.flatMap_cons, List.flatMap_nil,
    List.foldl_cons, List.foldl_nil,
    List.any_append, any_map_fn, List.any_cons, List.any_nil, any_const_true,
    any_const_false, List.cons_append, List.nil_append, List.append_nil,
    List.filterMap_append, filterMap_map_fn, filterMap_some_fn, filterMap_none_fn,
    List.filterMap_cons, List.filterMap_nil, filter_map_fn, map_map_fn,
    Entry.path_file, Entry.path_dir, Entry.relocate_file, Entry.relocate_dir,
    dropPre_nil, dropPre_cons_nil, dropPre_cons_cons, dropPre_append_self,
    Option.isSome_some, Option.isSome_none, Option.map_some', Option.map_none',
    hrb0, hrl0, hcb0, hsl0, ha1, ha2, ha3, ha4,
    Bool.or_false, Bool.false_or, Bool.or_true, Bool.true_or, Bool.not_false,
    Bool.not_true, String.reduceEq, String.reduceAppend,
    decide_False, decide_True, Bool.false_eq_true, Bool.true_eq_false, if_false,
    if_true, true_eq_true_prop, ite_true_cond, ite_false_cond]

theorem layout_linux_x64 (rb rl cb sl : List (FPath × FileMeta))
    (ac : String → List (FPath × FileMeta))
    (hrb : ∃ me, ((["rustc"] : FPath), me) ∈ rb)
    (hrlne : rl ≠ []) (hcbne : cb ≠ []) (hslne : sl ≠ [])
    (hrlshape : ∀ e ∈ rl, e.1.head? ≠ some "rustlib")
    (hslshape : ∀ e ∈ sl, e.1.head? = some "x86_64-unknown-linux-gnu")
    (hac : ∀ t ∈ androidTargets, ac t ≠ []) :
    (assembledFS "linux" "x64" rb rl cb sl ac).isFile ["r", "dist", "bin", "rustc"] = true
    ∧ (assembledFS "linux" "x64" rb rl cb sl ac).existsPath ["r", "dist", "lib"] = true
    ∧ (assembledFS "linux" "x64" rb rl cb sl ac).existsPath
        ["r", "dist", "lib", "rustlib", "x86_64-unknown-linux-gnu"] = true
    ∧ (∀ s, s ∈ (assembledFS "linux" "x64" rb rl cb sl ac).entriesUnder
        ["r", "dist", "lib", "rustlib"] ↔
          s ∈ "x86_64-unknown-linux-gnu" :: androidTargets)
    ∧ ((assembledFS "linux" "x64" rb rl cb sl ac).entriesUnder
        ["r", "dist", "lib", "rustlib"]).length = 5 := by
  obtain ⟨me, hme⟩ := hrb
  have hrb0 := isEmpty_eq_false_of_ne_nil (List.ne_nil_of_mem hme)
  have hrl0 := isEmpty_eq_false_of_ne_nil hrlne
  have hcb0 := isEmpty_eq_false_of_ne_nil hcbne
  have hsl0 := isEmpty_eq_false_of_ne_nil hslne
  have hane : ∀ t ∈ androidTargets, ac t ≠ [] := hac
  have ha1 := isEmpty_eq_false_of_ne_nil (hane "i686-linux-android" (by simp [androidTargets]))
  have ha2 := isEmpty_eq_false_of_ne_nil (hane "x86_64-linux-android" (by simp [androidTargets]))
  have ha3 := isEmpty_eq_false_of_ne_nil (hane "armv7-linux-androideabi" (by simp [androidTargets]))
  have ha4 := isEmpty_eq_false_of_ne_nil (hane "aarch64-linux-android" (by simp [androidTargets]))
  have hfs := assembled_linux_x64 rb rl cb sl ac hrb0 hrl0 hcb0 hsl0 ha1 ha2 ha3 ha4
  obtain ⟨x0, hx0⟩ := List.exists_mem_of_ne_nil sl hslne
  obtain ⟨tail0, htail0⟩ : ∃ t, x0.1 = "x86_64-unknown-linux-gnu" :: t := by
    cases hx : x0.1 with
    | nil =>
      have := hslshape x0 hx0
      rw [hx] at this
      simp at this
    | cons a t =>
      have := hslshape x0 hx0
      rw [hx] at this
      simp at this
      exact ⟨t, by rw [this]⟩
  obtain ⟨w1, hw1⟩ := List.exists_mem_of_ne_nil _
    (hane "i686-linux-android" (by simp [androidTargets]))
  obtain ⟨w2, hw2⟩ := List.exists_mem_of_ne_nil _
    (hane "x86_64-linux-android" (by simp [androidTargets]))
  obtain ⟨w3, hw3⟩ := List.exists_mem_of_ne_nil _
    (hane "armv7-linux-androideabi" (by simp [androidTargets]))
  obtain ⟨w4, hw4⟩ := List.exists_mem_of_ne_nil _
    (hane "aarch64-linux-android" (by simp [androidTargets]))
  have hiff : ∀ s, s ∈ (assembledFS "linux" "x64" rb rl cb sl ac).entriesUnder
      ["r", "dist", "lib", "rustlib"] ↔
        s ∈ "x86_64-unknown-linux-gnu" :: androidTargets := by
    intro s
    rw [hfs]
    simp only [androidTargets, List.mem_cons, List.not_mem_nil, or_false]
    simp only [FS.entriesUnder, List.mem_dedup, placeFiles,
      List.filterMap_append, filterMap_map_fn, filterMap_some_fn, filterMap_none_fn,
      List.filterMap_cons, List.filterMap_nil,
      List.mem_append, List.mem_filterMap, List.mem_map,
      List.cons_append, List.nil_append, List.append_nil,
      Entry.path_file, Entry.path_dir,
      dropPre_nil, dropPre_cons_nil, dropPre_cons_cons, dropPre_append_self,
      Option.some_bind, Option.none_bind,
      String.reduceEq, if_false, if_true, true_eq_true_prop,
      ite_true_cond, ite_false_cond]
    constructor
    · rintro (⟨a, ha, hha⟩ | ⟨a, ha, hha⟩ | ⟨a, ha, hha⟩ | ⟨a, ha, hha⟩ |
        ⟨a, ha, hha⟩ | ⟨a, ha, hha⟩)
      · simp at hha
        subst hha
        simp
      · simp at hha
        subst hha
        simp
      · simp at hha
        subst hha
        simp
      · simp at hha
        subst hha
        simp
      · rw [hslshape a ha] at hha
        exact Or.inl (Option.some_inj.mp hha).symm
      · exfalso
        cases hx : a.1 with
        | nil =>
          rw [hx] at hha
          rw [dropPre_cons_nil, Option.none_bind] at hha
          exact Option.noConfusion hha
        | cons b t =>
          by_cases hb : b = "rustlib"
          · have := hrlshape a ha
            rw [hx, hb] at this
            simp at this
          · rw [hx] at hha
            rw [dropPre_cons_cons, if_neg (Ne.symm hb), Option.none_bind] at hha
            exact Option.noConfusion hha
    · rintro (rfl | rfl | rfl | rfl | rfl)
      · exact Or.inr (Or.inr (Or.inr (Or.inr (Or.inl ⟨x0, hx0, by rw [htail0]; rfl⟩))))
      · exact Or.inr (Or.inr (Or.inr (Or.inl ⟨w1, hw1, rfl⟩)))
      · exact Or.inr (Or.inr (Or.inl ⟨w2, hw2, rfl⟩))
      · exact Or.inr (Or.inl ⟨w3, hw3, rfl⟩)
      · exact Or.inl ⟨w4, hw4, rfl⟩
  refine ⟨?_, ?_, ?_, hiff, ?_⟩
  · apply isFile_of_mem
    have hm : Entry.file ["r", "dist", "bin", "rustc"] me
        ∈ placeFiles ["r", "dist", "bin"] rb := by
      simpa using mem_placeFiles ["r", "dist", "bin"] hme
    rw [hfs]
    simp only [List.mem_append, List.mem_cons]
    tauto
  · rw [hfs]
    simp only [FS.existsPath, placeFiles, pre,
      List.any_append, any_map_fn, List.any_cons, List.any_nil, any_const_true,
      any_const_false, List.cons_append, List.nil_append, List.append_nil,
      Entry.path_file, Entry.path_dir,
      dropPre_nil, dropPre_cons_nil, dropPre_cons_cons, dropPre_append_self,
      Option.isSome_some, Option.isSome_none, hsl0,
      Bool.or_false, Bool.false_or, Bool.or_true, Bool.true_or, Bool.not_false,
      Bool.not_true, String.reduceEq, if_false, if_true, true_eq_true_prop,
      ite_true_cond, ite_false_cond]
  · rw [hfs]
    simp only [FS.existsPath, placeFiles, pre,
      List.any_append, any_map_fn, List.any_cons, List.any_nil, any_const_true,
      any_const_false, List.cons_append, List.nil_append, List.append_nil,
      Entry.path_file, Entry.path_dir,
      dropPre_nil, dropPre_cons_nil, dropPre_cons_cons, dropPre_append_self,
      Option.isSome_some, Option.isSome_none, hsl0,
      Bool.or_false, Bool.false_or, Bool.or_true, Bool.true_or, Bool.not_false,
      Bool.not_true, String.reduceEq, if_false, if_true, true_eq_true_prop,
      ite_true_cond, ite_false_cond]
    rw [Bool.or_eq_true]
    left
    rw [List.any_eq_true]
    refine ⟨x0, hx0, ?_⟩
    rw [htail0]
    simp
  · have hnd := entriesUnder_nodup (assembledFS "linux" "x64" rb rl cb sl ac)
      ["r", "dist", "lib", "rustlib"]
    have hperm : List.Perm ((assembledFS "linux" "x64" rb rl cb sl ac).entriesUnder
        ["r", "dist", "lib", "rustlib"]) ("x86_64-unknown-linux-gnu" :: androidTargets) := by
      refine (List.perm_ext_iff_of_nodup hnd (by simp [androidTargets])).mpr ?_
      intro a
      exact hiff a
    rw [hperm.length_eq]
    simp [androidTargets]

end COneProofs

/-- C1: for every supported platform, assembling a staging tree that holds
the primary archive's components (compiler `bin`/`lib`, package-manager
`bin`, and the host standard library whose `rustlib` entries all live
under the host triple) plus — on Linux — the four supplementary Android
standard-library archives, produces an output tree containing `bin/` with
the primary executable, `lib/`, and `lib/rustlib/<host-triple>/`; the
entries under `lib/rustlib/` are exactly the host triple plus one entry
per supplementary triple — `N+1` entries for `N` supplementary
archives (`N = 0` off Linux, `N = 4` on Linux). -/
theorem assemble_canonical_layout
    (platform arch : String) (rb rl cb sl : List (FPath × FileMeta))
    (ac : String → List (FPath × FileMeta))
    (hsup : (platform, arch) ∈ [("darwin", "arm64"), ("darwin", "x64"), ("linux", "x64")])
    (hrb : ∃ me, ((["rustc"] : FPath), me) ∈ rb)
    (hrlne : rl ≠ []) (hcbne : cb ≠ []) (hslne : sl ≠ [])
    (hrlshape : ∀ e ∈ rl, e.1.head? ≠ some "rustlib")
    (hslshape : ∀ e ∈ sl, e.1.head? = some (targetTripleOf (platform ++ "-" ++ arch)))
    (hac : ∀ t ∈ androidTargets, ac t ≠ []) :
    (assembledFS platform arch rb rl cb sl ac).isFile
        ["r", "dist", "bin", BINARY_NAME] = true
    ∧ (assembledFS platform arch rb rl cb sl ac).existsPath ["r", "dist", "lib"] = true
    ∧ (assembledFS platform arch rb rl cb sl ac).existsPath
        ["r", "dist", "lib", "rustlib", targetTripleOf (platform ++ "-" ++ arch)] = true
    ∧ (∀ s, s ∈ (assembledFS platform arch rb rl cb sl ac).entriesUnder
          ["r", "dist", "lib", "rustlib"] ↔
        s ∈ targetTripleOf (platform ++ "-" ++ arch) ::
          (if platform = "linux" then androidTargets else []))
    ∧ ((assembledFS platform arch rb rl cb sl ac).entriesUnder
        ["r", "dist", "lib", "rustlib"]).length
      = 1 + (supplementaryUrls platform).length := by
  simp only [List.mem_cons, List.not_mem_nil, or_false, Prod.mk.injEq] at hsup
  rcases hsup with ⟨rfl, rfl⟩ | ⟨rfl, rfl⟩ | ⟨rfl, rfl⟩
  · have hT : targetTripleOf ("darwin" ++ "-" ++ "arm64") = "aarch64-apple-darwin" := by decide
    rw [hT] at hslshape
    obtain ⟨c1, c2, c3, c4, c5⟩ :=
      layout_darwin_arm64 rb rl cb sl ac hrb hrlne hcbne hslne hrlshape hslshape
    refine ⟨by simpa [BINARY_NAME] using c1, c2, by rw [hT]; exact c3, ?_, ?_⟩
    · intro s
      rw [hT]
      simp only [String.reduceEq, if_false, List.mem_cons, List.not_mem_nil, or_false]
      exact c4 s
    · rw [c5]
      simp [supplementaryUrls]
  · have hT : targetTripleOf ("darwin" ++ "-" ++ "x64") = "x86_64-apple-darwin" := by decide
    rw [hT] at hslshape
    obtain ⟨c1, c2, c3, c4, c5⟩ :=
      layout_darwin_x64 rb rl cb sl ac hrb hrlne hcbne hslne hrlshape hslshape
    refine ⟨by simpa [BINARY_NAME] using c1, c2, by rw [hT]; exact c3, ?_, ?_⟩
    · intro s
      rw [hT]
      simp only [String.reduceEq, if_false, List.mem_cons, List.not_mem_nil, or_false]
      exact c4 s
    · rw [c5]
      simp [supplementaryUrls]
  · have hT : targetTripleOf ("linux" ++ "-" ++ "x64") = "x86_64-unknown-linux-gnu" := by decide
    rw [hT] at hslshape
    obtain ⟨c1, c2, c3, c4, c5⟩ :=
      layout_linux_x64 rb rl cb sl ac hrb hrlne hcbne hslne hrlshape hslshape hac
    refine ⟨by simpa [BINARY_NAME] using c1, c2, by rw [hT]; exact c3, ?_, ?_⟩
    · intro s
      rw [hT]
      simp only [String.reduceEq, if_true, ite_true_cond]
      exact c4 s
    · rw [c5]
      simp [supplementaryUrls, ANDROID_STDS]

/-- Witness for C1: a concrete canonical staging tree on `linux-x64`. -/
theorem assemble_canonical_layout_witness :
    (assembledFS "linux" "x64" [(["rustc"], ⟨100, 420⟩)]
        [(["librustc-driver.so"], ⟨200, 420⟩)] [(["cargo"], ⟨80, 493⟩)]
        [(["x86_64-unknown-linux-gnu", "lib", "libstd.rlib"], ⟨300, 420⟩)]
        (fun _ => [(["lib", "libstd.rlib"], ⟨300, 420⟩)])).isFile
      ["r", "dist", "bin", BINARY_NAME] = true
    ∧ ((assembledFS "linux" "x64" [(["rustc"], ⟨100, 420⟩)]
        [(["librustc-driver.so"], ⟨200, 420⟩)] [(["cargo"], ⟨80, 493⟩)]
        [(["x86_64-unknown-linux-gnu", "lib", "libstd.rlib"], ⟨300, 420⟩)]
        (fun _ => [(["lib", "libstd.rlib"], ⟨300, 420⟩)])).entriesUnder
        ["r", "dist", "lib", "rustlib"]).length = 1 + (supplementaryUrls "linux").length := by
  have h := assemble_canonical_layout "linux" "x64" [(["rustc"], ⟨100, 420⟩)]
    [(["librustc-driver.so"], ⟨200, 420⟩)] [(["cargo"], ⟨80, 493⟩)]
    [(["x86_64-unknown-linux-gnu", "lib", "libstd.rlib"], ⟨300, 420⟩)]
    (fun _ => [(["lib", "libstd.rlib"], ⟨300, 420⟩)])
    (by decide) ⟨⟨100, 420⟩, by decide⟩ (by decide) (by decide) (by decide)
    (by decide) (by decide) (by decide)
  exact ⟨h.1, h.2.2.2.2⟩
